import Mathlib

/-!
Shallow embedding of the in-memory product catalog service
(src/product-service/index.js).

Modelling conventions:
* JavaScript numbers are modelled exactly, as `Rat` (for prices and other
  fractional values) and `Int` (for ids and integer counters).  `NaN` is
  modelled by `Option`: a stored price is `Option Rat` and a stored stock
  is `Option Int`, with `none` standing for `NaN` (which arises from
  `parseInt`/`parseFloat` failures exactly as in the source).  JS
  comparisons involving `NaN` are all false; the embedded comparison
  functions reproduce that.
* Request-body field values are modelled by `JVal`
  (undefined/null/number/string/boolean).  The `name`, `category` and
  `description` fields are modelled as `Option String` (absent =
  undefined): a non-string value in those positions either fails the
  falsy check, throws inside `.trim()`/`.toLowerCase()` before any
  mutation (create, put, stock-adjust operation), or acts exactly like
  its `String()` image (patch), so the string boundary loses no
  catalog-state behaviour relevant to the claims.
* `Number(string)` is modelled on the decimal fragment of the JS
  grammar (optional sign, digits, optional fraction and exponent, with
  surrounding whitespace; the empty/whitespace string is 0).  Hex
  literals and `Infinity` are outside the model.
* `parseInt(v, 10)` on a number argument goes through `String(v)`; for
  numbers printed in fixed notation this is truncation toward zero,
  which is how it is modelled (`ratTrunc`).
* Timestamps (`new Date().toISOString()`) are environment inputs; every
  mutating operation takes the current clock reading `now : String`.
-/

/-- A loosely-typed JS request-body value (the JSON fragment the
numeric fields of the service can receive). -/
inductive JVal where
  | undefined : JVal
  | null : JVal
  | num : Rat → JVal
  | str : String → JVal
  | boolean : Bool → JVal
deriving DecidableEq

/-- Numeric value of a list of decimal digit characters. -/
def digitsToNat (cs : List Char) : Nat :=
  cs.foldl (fun a c => a * 10 + (c.toNat - 48)) 0

/-- Strip leading JS whitespace. -/
def dropWS (cs : List Char) : List Char :=
  cs.dropWhile (fun c => c.isWhitespace)

/-- Strip trailing whitespace. -/
def dropTrailingWS (cs : List Char) : List Char :=
  (cs.reverse.dropWhile (fun c => c.isWhitespace)).reverse

/-- `String.prototype.toLowerCase()` (character-wise; kernel-computable). -/
def jsToLower (s : String) : String :=
  ⟨s.data.map Char.toLower⟩

/-- `String.prototype.trim()`: strip whitespace from both ends. -/
def jsTrim (s : String) : String :=
  ⟨dropTrailingWS (dropWS s.data)⟩

/-- Split an optional leading sign, returning the sign as `1` or `-1`. -/
def splitSign : List Char → (Int × List Char)
  | '-' :: r => (-1, r)
  | '+' :: r => (1, r)
  | r => (1, r)

/-- Exact rational product via `mkRat` (the `Rat` arithmetic
instances do not reduce in the kernel; `mkRat` does). -/
def ratMul (a b : Rat) : Rat :=
  mkRat (a.num * b.num) (a.den * b.den)

/-- Exact rational sum via `mkRat`. -/
def ratAdd (a b : Rat) : Rat :=
  mkRat (a.num * (b.den : Int) + b.num * (a.den : Int)) (a.den * b.den)

/-- Apply a sign (`1` or `-1`) to a rational. -/
def ratSigned (sg : Int) (v : Rat) : Rat :=
  mkRat (sg * v.num) v.den

/-- `10^e` for an integer exponent `e`, as a rational. -/
def pow10 (e : Int) : Rat :=
  if 0 ≤ e then mkRat ((10 : Int) ^ e.toNat) 1 else mkRat 1 ((10 : Nat) ^ (-e).toNat)

/-- `parseInt(s, 10)`: skip leading whitespace, optional sign, then the
longest run of decimal digits; `none` models `NaN` (no digits). -/
def parseIntJS (s : String) : Option Int :=
  let (sg, r) := splitSign (dropWS s.data)
  let d := r.takeWhile Char.isDigit
  if d.isEmpty then none else some (sg * (digitsToNat d : Int))

/-- The mantissa `d1 . d2` as a rational. -/
def mantissaVal (d1 d2 : List Char) : Rat :=
  ratAdd (mkRat (digitsToNat d1) 1) (mkRat (digitsToNat d2) ((10 : Nat) ^ d2.length))

/-- Exponent suffix of a JS numeric literal: sign and digits, which must
consume the whole remainder. -/
def parseExpSuffix (cs : List Char) : Option Int :=
  let (sg2, r) := splitSign cs
  let d3 := r.takeWhile Char.isDigit
  if d3.isEmpty then none
  else if (r.dropWhile Char.isDigit).isEmpty then some (sg2 * (digitsToNat d3 : Int))
  else none

/-- Body of `Number(string)` after trimming: the whole remainder must be
a decimal literal `[sign] digits [. digits] [(e|E) [sign] digits]`. -/
def strNumCore (cs : List Char) : Option Rat :=
  let (sg, r) := splitSign cs
  let d1 := r.takeWhile Char.isDigit
  let r1 := r.dropWhile Char.isDigit
  match r1 with
  | [] => if d1.isEmpty then none else some (ratSigned sg (mkRat (digitsToNat d1) 1))
  | '.' :: r2 =>
    let d2 := r2.takeWhile Char.isDigit
    let r3 := r2.dropWhile Char.isDigit
    if d1.isEmpty && d2.isEmpty then none
    else match r3 with
      | [] => some (ratSigned sg (mantissaVal d1 d2))
      | 'e' :: r4 =>
        (parseExpSuffix r4).map (fun e => ratSigned sg (ratMul (mantissaVal d1 d2) (pow10 e)))
      | 'E' :: r4 =>
        (parseExpSuffix r4).map (fun e => ratSigned sg (ratMul (mantissaVal d1 d2) (pow10 e)))
      | _ => none
  | 'e' :: r4 =>
    if d1.isEmpty then none
    else (parseExpSuffix r4).map
      (fun e => ratSigned sg (ratMul (mkRat (digitsToNat d1) 1) (pow10 e)))
  | 'E' :: r4 =>
    if d1.isEmpty then none
    else (parseExpSuffix r4).map
      (fun e => ratSigned sg (ratMul (mkRat (digitsToNat d1) 1) (pow10 e)))
  | _ => none

/-- `Number(string)`: trim both ends; empty means `0`; otherwise the
whole string must be a decimal literal.  `none` models `NaN`. -/
def jsStrToNumber (s : String) : Option Rat :=
  let cs := dropTrailingWS (dropWS s.data)
  if cs.isEmpty then some 0 else strNumCore cs

/-- `Number(v)` for a body value.  `none` models `NaN`. -/
def jsValToNumber : JVal → Option Rat
  | .undefined => none
  | .null => some 0
  | .num q => some q
  | .str s => jsStrToNumber s
  | .boolean b => some (if b then 1 else 0)

/-- Truncation of a rational toward zero, which is what
`parseInt(String(q), 10)` computes for a number printed in fixed
notation. -/
def ratTrunc (q : Rat) : Int :=
  q.num.tdiv (q.den : Int)

/-- `parseInt(v, 10)` on a body value (via `String(v)`).  `none` models
`NaN`: booleans, `null` and `undefined` stringify to non-numeric text. -/
def parseIntOfVal : JVal → Option Int
  | .num q => some (ratTrunc q)
  | .str s => parseIntJS s
  | _ => none

/-- `parseFloat` on a string: skip leading whitespace, optional sign,
then the longest numeric prefix (digits, optional fraction, and an
exponent only when it is well formed); trailing garbage is ignored.
`none` models `NaN` (no leading digits at all). -/
def parseFloatStr (s : String) : Option Rat :=
  let (sg, r) := splitSign (dropWS s.data)
  let d1 := r.takeWhile Char.isDigit
  let r1 := r.dropWhile Char.isDigit
  let withFrac :=
    match r1 with
    | '.' :: r2 => (d1, r2.takeWhile Char.isDigit, r2.dropWhile Char.isDigit)
    | _ => (d1, [], r1)
  match withFrac with
  | (m1, m2, rest) =>
    if m1.isEmpty && m2.isEmpty then none
    else
      let base := ratSigned sg (mantissaVal m1 m2)
      match rest with
      | 'e' :: r4 => some (match parseExpSuffixPrefix r4 with
          | some e => ratMul base (pow10 e)
          | none => base)
      | 'E' :: r4 => some (match parseExpSuffixPrefix r4 with
          | some e => ratMul base (pow10 e)
          | none => base)
      | _ => some base
where
  /-- Exponent for `parseFloat`: optional sign then at least one digit;
  trailing garbage after the digits is ignored. -/
  parseExpSuffixPrefix (cs : List Char) : Option Int :=
    let (sg2, r) := splitSign cs
    let d3 := r.takeWhile Char.isDigit
    if d3.isEmpty then none else some (sg2 * (digitsToNat d3 : Int))

/-- `parseFloat(v)` on a body value (via `String(v)`). -/
def parseFloatJS : JVal → Option Rat
  | .num q => some q
  | .str s => parseFloatStr s
  | _ => none

/-- A stored product record.  `price`/`stock` are `none` when the stored
JS number is `NaN`; `updatedAt` is `none` while the JS field is `null`. -/
structure Product where
  id : Int
  name : String
  category : String
  price : Option Rat
  stock : Option Int
  description : String
  createdAt : String
  updatedAt : Option String
deriving DecidableEq

/-- The whole mutable state of the service: the `products` array and the
`currentId` counter. -/
structure St where
  products : List Product
  currentId : Int
deriving DecidableEq

/-- The seed catalog the module initializes `products` with. -/
def seedProducts : List Product :=
  [ { id := 1, name := "Laptop", category := "Electronics",
      price := some (mkRat 99999 100), stock := some 15,
      description := "High-performance laptop with 16GB RAM",
      createdAt := "2024-01-15T10:30:00.000Z", updatedAt := none },
    { id := 2, name := "Smartphone", category := "Electronics",
      price := some (mkRat 69999 100), stock := some 25,
      description := "Latest smartphone with 128GB storage",
      createdAt := "2024-01-20T14:45:00.000Z", updatedAt := none },
    { id := 3, name := "Coffee Maker", category := "Home Appliances",
      price := some (mkRat 8999 100), stock := some 40,
      description := "Programmable coffee maker with thermal carafe",
      createdAt := "2024-01-25T09:15:00.000Z", updatedAt := none },
    { id := 4, name := "Desk Chair", category := "Furniture",
      price := some (mkRat 24999 100), stock := some 8,
      description := "Ergonomic office chair with lumbar support",
      createdAt := "2024-02-01T11:20:00.000Z", updatedAt := none } ]

/-- `currentId = max seed id + 1 = 5`. -/
def seedState : St := { products := seedProducts, currentId := 5 }

/-- Creation/full-update body (`name`, `category`, `price`, `stock`,
`description`); string fields are `Option String` with `none` = absent. -/
structure CreateBody where
  name : Option String
  category : Option String
  price : JVal
  stock : JVal
  description : Option String
deriving DecidableEq

/-- Partial-update (PATCH) body; every field optional.  The source
merges unknown extra fields verbatim as well; those do not touch the
fields any claim is about and are outside the model. -/
structure PatchBody where
  name : Option String
  category : Option String
  price : JVal
  stock : JVal
  description : Option String
deriving DecidableEq

/-- Violations of the `name` rule in `validateProduct`
(`!name || name.trim() === ''`). -/
def nameErrors (v : Option String) : List String :=
  match v with
  | none => ["Product name is required"]
  | some s => if jsTrim s = "" then ["Product name is required"] else []

/-- Violations of the `category` rule in `validateProduct`. -/
def categoryErrors (v : Option String) : List String :=
  match v with
  | none => ["Category is required"]
  | some s => if jsTrim s = "" then ["Category is required"] else []

/-- Violations of the `price` rule in `validateProduct`:
required, then `isNaN(price) || Number(price) < 0`. -/
def priceErrorsCreate (v : JVal) : List String :=
  match v with
  | .undefined => ["Price is required"]
  | .null => ["Price is required"]
  | v =>
    match jsValToNumber v with
    | none => ["Price must be a positive number"]
    | some q => if q < 0 then ["Price must be a positive number"] else []

/-- Violations of the `stock` rule in `validateProduct`: required, then
`isNaN(stock) || !Number.isInteger(Number(stock)) || Number(stock) < 0`. -/
def stockErrorsCreate (v : JVal) : List String :=
  match v with
  | .undefined => ["Stock quantity is required"]
  | .null => ["Stock quantity is required"]
  | v =>
    match jsValToNumber v with
    | none => ["Stock must be a non-negative integer"]
    | some q =>
      if ¬ q.isInt ∨ q < 0 then ["Stock must be a non-negative integer"] else []

/-- `validateProduct` (creation/full-update middleware): accumulates all
violations in source order. -/
def validateProduct (b : CreateBody) : List String :=
  nameErrors b.name ++ categoryErrors b.category
    ++ priceErrorsCreate b.price ++ stockErrorsCreate b.stock

/-- `price` rule of `validateProductUpdate`: only checked when the field
is present (`price !== undefined`). -/
def priceErrorsUpdate (v : JVal) : List String :=
  match v with
  | .undefined => []
  | v =>
    match jsValToNumber v with
    | none => ["Price must be a positive number"]
    | some q => if q < 0 then ["Price must be a positive number"] else []

/-- `stock` rule of `validateProductUpdate`. -/
def stockErrorsUpdate (v : JVal) : List String :=
  match v with
  | .undefined => []
  | v =>
    match jsValToNumber v with
    | none => ["Stock must be a non-negative integer"]
    | some q =>
      if ¬ q.isInt ∨ q < 0 then ["Stock must be a non-negative integer"] else []

/-- `validateProductUpdate` (partial-update middleware). -/
def validateProductUpdate (b : PatchBody) : List String :=
  priceErrorsUpdate b.price ++ stockErrorsUpdate b.stock

/-- Tagged failures of the core operations (§7 taxonomy, with the
required-fields and quantity checks of the stock route kept separate,
as the source reports them through distinct messages). -/
inductive Err where
  | validationFailed : List String → Err
  | invalidId : Err
  | notFound : Err
  | nameConflict : Err
  | missingRequired : Err
  | invalidQuantity : Err
  | insufficientStock : Int → Int → Err
  | invalidOperation : Err
deriving DecidableEq

/-- `findIndex` paired with the found element, counting from `i`. -/
def findWithIndex (p : α → Bool) : Nat → List α → Option (Nat × α)
  | _, [] => none
  | i, a :: l => if p a then some (i, a) else findWithIndex p (i + 1) l

/-- `products.findIndex(p => p.id === id)` together with the record. -/
def findIdxP (l : List Product) (id : Int) : Option (Nat × Product) :=
  findWithIndex (fun p => p.id == id) 0 l

/-- Final state of an operation: the new state on success, the old state
on a rejection (the source returns before any assignment on every error
path). -/
def stateAfter (st : St) (r : Except Err (St × Product)) : St :=
  match r with
  | .ok (st', _) => st'
  | .error _ => st

/-- `POST /products`: validate, check case-insensitive name uniqueness
against the *untrimmed* payload name, then insert the record with the
*trimmed* name and the next id. -/
def createProduct (st : St) (now : String) (b : CreateBody) :
    Except Err (St × Product) :=
  let errs := validateProduct b
  if errs = [] then
    let nm := b.name.getD ""
    if st.products.any (fun p => jsToLower p.name == jsToLower nm) then
      .error .nameConflict
    else
      let newP : Product :=
        { id := st.currentId,
          name := jsTrim nm,
          category := jsTrim (b.category.getD ""),
          price := parseFloatJS b.price,
          stock := parseIntOfVal b.stock,
          description := b.description.getD "",
          createdAt := now,
          updatedAt := none }
      .ok ({ products := st.products ++ [newP], currentId := st.currentId + 1 },
           newP)
  else .error (.validationFailed errs)

/-- `GET /products/:id` after the id has parsed. -/
def getProductNum (st : St) (id : Int) : Except Err Product :=
  match st.products.find? (fun p => p.id == id) with
  | none => .error .notFound
  | some p => .ok p

/-- `GET /products/:id`. -/
def getProduct (st : St) (idStr : String) : Except Err Product :=
  match parseIntJS idStr with
  | none => .error .invalidId
  | some id => getProductNum st id

/-- `PUT /products/:id` after validation and id parsing: lookup,
name-conflict check against other ids (again on the untrimmed name),
then replace the mutable fields.  An absent or empty-string
`description` keeps the previous one (`description || old`). -/
def putProductNum (st : St) (now : String) (id : Int) (b : CreateBody) :
    Except Err (St × Product) :=
  match findIdxP st.products id with
  | none => .error .notFound
  | some (j, old) =>
    let nm := b.name.getD ""
    if st.products.any (fun p => jsToLower p.name == jsToLower nm && p.id != id) then
      .error .nameConflict
    else
      let upd : Product :=
        { old with
          name := jsTrim nm,
          category := jsTrim (b.category.getD ""),
          price := parseFloatJS b.price,
          stock := parseIntOfVal b.stock,
          description :=
            match b.description with
            | some d => if d = "" then old.description else d
            | none => old.description,
          updatedAt := some now }
      .ok ({ st with products := st.products.set j upd }, upd)

/-- `PUT /products/:id` (the `validateProduct` middleware runs before
the id is parsed). -/
def putProduct (st : St) (now : String) (idStr : String) (b : CreateBody) :
    Except Err (St × Product) :=
  let errs := validateProduct b
  if errs = [] then
    match parseIntJS idStr with
    | none => .error .invalidId
    | some id => putProductNum st now id b
  else .error (.validationFailed errs)

/-- `PATCH /products/:id` after validation and id parsing: the
name-conflict check runs only when the supplied name is truthy; numeric
and `name`/`category` fields are coerced, then the supplied fields are
merged over the record. -/
def patchProductNum (st : St) (now : String) (id : Int) (b : PatchBody) :
    Except Err (St × Product) :=
  match findIdxP st.products id with
  | none => .error .notFound
  | some (j, old) =>
    let conflict :=
      match b.name with
      | some s =>
        if s = "" then false
        else st.products.any (fun p => jsToLower p.name == jsToLower s && p.id != id)
      | none => false
    if conflict then .error .nameConflict
    else
      let upd : Product :=
        { old with
          name := match b.name with | some s => jsTrim s | none => old.name,
          category := match b.category with | some s => jsTrim s | none => old.category,
          price := match b.price with | .undefined => old.price | v => parseFloatJS v,
          stock := match b.stock with | .undefined => old.stock | v => parseIntOfVal v,
          description := match b.description with | some d => d | none => old.description,
          updatedAt := some now }
      .ok ({ st with products := st.products.set j upd }, upd)

/-- `PATCH /products/:id` (the `validateProductUpdate` middleware runs
before the id is parsed). -/
def patchProduct (st : St) (now : String) (idStr : String) (b : PatchBody) :
    Except Err (St × Product) :=
  let errs := validateProductUpdate b
  if errs = [] then
    match parseIntJS idStr with
    | none => .error .invalidId
    | some id => patchProductNum st now id b
  else .error (.validationFailed errs)

/-- `DELETE /products/:id` after the id has parsed. -/
def deleteProductNum (st : St) (id : Int) : Except Err (St × Product) :=
  match findIdxP st.products id with
  | none => .error .notFound
  | some (j, old) =>
    .ok ({ st with products := st.products.eraseIdx j }, old)

/-- `DELETE /products/:id`. -/
def deleteProduct (st : St) (idStr : String) : Except Err (St × Product) :=
  match parseIntJS idStr with
  | none => .error .invalidId
  | some id => deleteProductNum st id

/-- `POST /products/:id/stock` after the id has parsed: required check,
quantity parse (`parseInt`, so fractional numerics are truncated),
lookup, then the add/subtract dispatch on the lowercased operation. -/
def adjustStockNum (st : St) (now : String) (id : Int)
    (op : Option String) (qty : JVal) : Except Err (St × Product) :=
  if (match op with | none => true | some s => s = "")
      || qty = JVal.undefined || qty = JVal.null then
    .error .missingRequired
  else
    match parseIntOfVal qty with
    | none => .error .invalidQuantity
    | some q =>
      if q ≤ 0 then .error .invalidQuantity
      else
        match findIdxP st.products id with
        | none => .error .notFound
        | some (j, p) =>
          let o := jsToLower (op.getD "")
          if o = "add" then
            let upd := { p with stock := p.stock.map (· + q), updatedAt := some now }
            .ok ({ st with products := st.products.set j upd }, upd)
          else if o = "subtract" then
            match p.stock with
            | some s =>
              if s < q then .error (.insufficientStock s q)
              else
                let upd := { p with stock := some (s - q), updatedAt := some now }
                .ok ({ st with products := st.products.set j upd }, upd)
            | none =>
              let upd := { p with stock := none, updatedAt := some now }
              .ok ({ st with products := st.products.set j upd }, upd)
          else .error .invalidOperation

/-- `POST /products/:id/stock` (the id is parsed first on this route). -/
def adjustStock (st : St) (now : String) (idStr : String)
    (op : Option String) (qty : JVal) : Except Err (St × Product) :=
  match parseIntJS idStr with
  | none => .error .invalidId
  | some id => adjustStockNum st now id op qty

/-- Catalog state after a stock-adjust request. -/
def adjustState (st : St) (now : String) (idStr : String)
    (op : Option String) (qty : JVal) : St :=
  stateAfter st (adjustStock st now idStr op qty)

/-- Query-string parameters of `GET /products`; every value arrives as a
string, `none` = parameter absent. -/
structure Query where
  category : Option String
  minPrice : Option String
  maxPrice : Option String
  inStock : Option String
  search : Option String
  sortBy : Option String
  sortOrder : Option String
  page : Option String
  limit : Option String
deriving DecidableEq

/-- Boolean list-prefix test. -/
def listPrefixB [BEq α] : List α → List α → Bool
  | [], _ => true
  | _ :: _, [] => false
  | a :: as, b :: bs => a == b && listPrefixB as bs

/-- Boolean list-infix test (JS `String.prototype.includes`). -/
def listInfixB [BEq α] : List α → List α → Bool
  | n, [] => listPrefixB n []
  | n, h :: t => listPrefixB n (h :: t) || listInfixB n t

/-- `hay.includes(needle)`. -/
def strIncludes (hay needle : String) : Bool :=
  listInfixB needle.data hay.data

/-- JS `<` on two possibly-NaN numbers: false when either is NaN. -/
def ratOptLt (a b : Option Rat) : Bool :=
  match a, b with
  | some x, some y => decide (x < y)
  | _, _ => false

/-- JS `<` on two possibly-NaN integers. -/
def intOptLt (a b : Option Int) : Bool :=
  match a, b with
  | some x, some y => decide (x < y)
  | _, _ => false

/-- JS `>=` of a possibly-NaN number against a number. -/
def ratOptGe (a : Option Rat) (m : Rat) : Bool :=
  match a with
  | some x => decide (m ≤ x)
  | none => false

/-- JS `<=` of a possibly-NaN number against a number. -/
def ratOptLe (a : Option Rat) (m : Rat) : Bool :=
  match a with
  | some x => decide (x ≤ m)
  | none => false

/-- The category → minPrice → maxPrice → inStock → search filter chain. -/
def applyFilters (l : List Product) (q : Query) : List Product :=
  let l1 := match q.category with
    | some c => if c = "" then l
        else l.filter (fun p => jsToLower p.category == jsToLower c)
    | none => l
  let l2 := match q.minPrice with
    | some ms => if ms = "" then l1
        else match parseFloatStr ms with
          | some m => l1.filter (fun p => ratOptGe p.price m)
          | none => l1
    | none => l1
  let l3 := match q.maxPrice with
    | some ms => if ms = "" then l2
        else match parseFloatStr ms with
          | some m => l2.filter (fun p => ratOptLe p.price m)
          | none => l2
    | none => l2
  let l4 := match q.inStock with
    | some s =>
      if s = "true" then l3.filter (fun p => intOptLt (some 0) p.stock)
      else if s = "false" then l3.filter (fun p => p.stock == some 0)
      else l3
    | none => l3
  match q.search with
  | some s => if s = "" then l4
      else l4.filter (fun p =>
        strIncludes (jsToLower p.name) (jsToLower s)
          || strIncludes (jsToLower p.description) (jsToLower s))
  | none => l4

/-- The sort fields the route recognizes. -/
def validSortFields : List String := ["id", "name", "price", "stock", "createdAt"]

/-- `sortBy` normalization: unknown values silently fall back to `id`. -/
def sortFieldOf (v : Option String) : String :=
  match v with
  | none => "id"
  | some s => if s ∈ validSortFields then s else "id"

/-- `sortOrder` normalization: `desc` (case-insensitive) is `-1`,
anything else `1`. -/
def sortOrderOf (v : Option String) : Int :=
  if jsToLower (v.getD "asc") = "desc" then -1 else 1

/-- `a[sortField] < b[sortField]` with the name compared lowercased. -/
def fieldLt (f : String) (a b : Product) : Bool :=
  match f with
  | "name" => decide (jsToLower a.name < jsToLower b.name)
  | "price" => ratOptLt a.price b.price
  | "stock" => intOptLt a.stock b.stock
  | "createdAt" => decide (a.createdAt < b.createdAt)
  | _ => decide (a.id < b.id)

/-- The route's comparator: `-order`, `order`, or `0`. -/
def cmpJS (f : String) (o : Int) (a b : Product) : Int :=
  if fieldLt f a b then -1 * o else if fieldLt f b a then 1 * o else 0

/-- The comparator as a `mergeSort` predicate (stable, like the JS
engine's sort). -/
def leJS (f : String) (o : Int) (a b : Product) : Bool :=
  decide (cmpJS f o a b ≤ 0)

/-- `pageNum`: `Number.isInteger(Number(page)) ? parseInt(page, 10) : 1`
with the absent parameter defaulting to the number `1`;
`none` models `NaN` (possible: `parseInt` of a string whose `Number`
image is an integer can still fail, e.g. the empty string). -/
def pageNumOf (v : Option String) : Option Int :=
  match v with
  | none => some 1
  | some s =>
    match jsStrToNumber s with
    | some q => if q.isInt then parseIntJS s else some 1
    | none => some 1

/-- `limitNum`, defaulting to the number `10`. -/
def limitNumOf (v : Option String) : Option Int :=
  match v with
  | none => some 10
  | some s =>
    match jsStrToNumber s with
    | some q => if q.isInt then parseIntJS s else some 10
    | none => some 10

/-- `safePageNum = pageNum > 0 ? pageNum : 1` (false for `NaN`). -/
def safePageOf (v : Option String) : Nat :=
  match pageNumOf v with
  | some n => if 0 < n then n.toNat else 1
  | none => 1

/-- `safeLimitNum = limitNum > 0 ? limitNum : 10`. -/
def safeLimitOf (v : Option String) : Nat :=
  match limitNumOf v with
  | some n => if 0 < n then n.toNat else 10
  | none => 10

/-- Insert an element into an already-sorted list, before the first
element it compares `le` to — ties keep the inserted (originally
earlier) element first, which is the stable-sort placement. -/
def insertStable (le : Product → Product → Bool) (a : Product) :
    List Product → List Product
  | [] => [a]
  | b :: t => if le a b then a :: b :: t else b :: insertStable le a t

/-- Stable sort (insertion formulation) modelling the engine's stable
`Array.prototype.sort` under the route's comparator. -/
def sortStable (le : Product → Product → Bool) : List Product → List Product
  | [] => []
  | a :: t => insertStable le a (sortStable le t)

/-- The filtered list after the (stable) sort — the full
filtered-and-sorted sequence the pagination slices. -/
def filteredSorted (st : St) (q : Query) : List Product :=
  sortStable (leJS (sortFieldOf q.sortBy) (sortOrderOf q.sortOrder))
    (applyFilters st.products q)

/-- Response metadata of `GET /products`. -/
structure QueryMeta where
  totalProducts : Nat
  totalPages : Nat
  currentPage : Nat
  pageSize : Nat
  hasNextPage : Bool
  hasPrevPage : Bool
deriving DecidableEq

/-- Response of `GET /products` (the `filters` echo carries no catalog
data and is omitted). -/
structure QueryResult where
  metadata : QueryMeta
  products : List Product
deriving DecidableEq

/-- `GET /products`: filter, sort, then slice
`[(page-1)*limit, (page-1)*limit + limit)` with
`totalPages = ceil(total / limit)`. -/
def queryResult (st : St) (q : Query) : QueryResult :=
  let l := filteredSorted st q
  let p := safePageOf q.page
  let k := safeLimitOf q.limit
  let start := (p - 1) * k
  { metadata :=
      { totalProducts := l.length,
        totalPages := (l.length + k - 1) / k,
        currentPage := p,
        pageSize := k,
        hasNextPage := decide (start + k < l.length),
        hasPrevPage := decide (0 < start) },
    products := (l.drop start).take k }

/-- One inbound mutation request (read-only routes do not touch the
state).  Each mutating request carries the clock reading at which the
transport layer delivered it. -/
inductive Op where
  | create : String → CreateBody → Op
  | put : String → String → CreateBody → Op
  | patch : String → String → PatchBody → Op
  | del : String → Op
  | adjust : String → String → Option String → JVal → Op

/-- State transition of one request. -/
def step (st : St) (o : Op) : St :=
  match o with
  | .create now b => stateAfter st (createProduct st now b)
  | .put now idStr b => stateAfter st (putProduct st now idStr b)
  | .patch now idStr b => stateAfter st (patchProduct st now idStr b)
  | .del idStr => stateAfter st (deleteProduct st idStr)
  | .adjust now idStr op qty => stateAfter st (adjustStock st now idStr op qty)

/-- Run a request sequence. -/
def run (st : St) : List Op → St
  | [] => st
  | o :: os => run (step st o) os

/-- The ids returned by the successful creates of a request sequence, in
order of occurrence. -/
def createdIds (st : St) : List Op → List Int
  | [] => []
  | o :: os =>
    match o with
    | .create now b =>
      match createProduct st now b with
      | .ok (st', p) => p.id :: createdIds st' os
      | .error _ => createdIds st os
    | _ => createdIds (step st o) os

/-- All ids the store ever assigned when the sequence `ops` runs against
the seed catalog: the seed ids, then each id a successful create
returned. -/
def assignedIds (ops : List Op) : List Int :=
  seedProducts.map Product.id ++ createdIds seedState ops

/-- Case-insensitive pairwise distinctness of the live record names. -/
def namesUniqueCI : List Product → Bool
  | [] => true
  | p :: rest =>
    rest.all (fun q => jsToLower p.name != jsToLower q.name) && namesUniqueCI rest

/-- JS `stock >= 0` (false when the stored stock is `NaN`). -/
def jsStockNonNeg (v : Option Int) : Bool :=
  match v with
  | some s => decide (0 ≤ s)
  | none => false

/-- Creation payload whose name carries surrounding whitespace around an
existing name: `{name: " Laptop ", category: "Misc", price: 1, stock: 0}`. -/
def paddedNameBody : CreateBody :=
  { name := some " Laptop ", category := some "Misc", price := .num 1,
    stock := .num 0, description := none }

/-- Catalog after posting `paddedNameBody` against the seed. -/
def paddedNameState : St :=
  stateAfter seedState (createProduct seedState "2024-03-01T00:00:00.000Z" paddedNameBody)

/-- C1: the claimed invariant — no two live records with case-insensitively
equal names — is broken by the code: the uniqueness check compares the
untrimmed payload name (`" laptop "`) against the stored names, but the
trimmed name (`"Laptop"`) is stored, so `POST {name: " Laptop ", ...}`
against the seed catalog is accepted and leaves two live records named
`"Laptop"`. -/
theorem c1_name_uniqueness_broken :
    (createProduct seedState "2024-03-01T00:00:00.000Z" paddedNameBody).isOk = true
    ∧ namesUniqueCI seedState.products = true
    ∧ namesUniqueCI paddedNameState.products = false
    ∧ paddedNameState.products.map Product.name
        = ["Laptop", "Smartphone", "Coffee Maker", "Desk Chair", "Laptop"] := by
  refine ⟨?_, ?_, ?_, ?_⟩ <;> decide

/-- Creation payload with an empty-string stock:
`{name: "Widget", category: "Misc", price: 1, stock: ""}`. -/
def emptyStockBody : CreateBody :=
  { name := some "Widget", category := some "Misc", price := .num 1,
    stock := .str "", description := none }

/-- Catalog after posting `emptyStockBody` against the seed. -/
def emptyStockState : St :=
  stateAfter seedState (createProduct seedState "2024-03-01T00:00:00.000Z" emptyStockBody)

/-- C2: the claimed invariant `stock ≥ 0` in every reachable state is
broken by the code: `stock: ""` passes `validateProduct` (JS
`isNaN('')` is false because `Number('')` is `0`), but
`parseInt('', 10)` is `NaN`, so the accepted record is stored with
`stock = NaN`, for which `stock >= 0` is false. -/
theorem c2_stock_nonneg_broken :
    validateProduct emptyStockBody = []
    ∧ (createProduct seedState "2024-03-01T00:00:00.000Z" emptyStockBody).isOk = true
    ∧ seedState.products.all (fun p => jsStockNonNeg p.stock) = true
    ∧ emptyStockState.products.all (fun p => jsStockNonNeg p.stock) = false
    ∧ (emptyStockState.products.map Product.stock).getLast? = some none := by
  refine ⟨?_, ?_, ?_, ?_, ?_⟩ <;> decide

/-- C6: a subtract whose quantity exceeds the current stock is rejected
with `InsufficientStock(available = current stock, requested = quantity)`
and the catalog — hence the record, `updatedAt` included — is exactly
unchanged. -/
theorem c6_insufficient_stock (st : St) (now idStr o : String) (qty : JVal)
    (id q s : Int) (j : Nat) (p : Product)
    (hid : parseIntJS idStr = some id)
    (ho : o ≠ "") (hol : jsToLower o = "subtract")
    (hq1 : qty ≠ JVal.undefined) (hq2 : qty ≠ JVal.null)
    (hq : parseIntOfVal qty = some q) (hqpos : 0 < q)
    (hfind : findIdxP st.products id = some (j, p))
    (hs : p.stock = some s) (hlt : s < q) :
    adjustStock st now idStr (some o) qty = .error (.insufficientStock s q)
      ∧ adjustState st now idStr (some o) qty = st := by
  have h0 : adjustStock st now idStr (some o) qty
      = adjustStockNum st now id (some o) qty := by
    unfold adjustStock; rw [hid]
  have h1 : adjustStockNum st now id (some o) qty
      = .error (.insufficientStock s q) := by
    unfold adjustStockNum
    rw [hq]
    simp only [ho, hq1, hq2, decide_eq_true_eq, if_false, Option.getD_some, hol, hfind]
    rw [if_neg (show ¬ ((decide False || decide False || decide False) = true) from by decide),
      if_neg (show ¬ (q ≤ 0) from by omega),
      if_neg (show ¬ ("subtract" = "add") from by decide), if_pos trivial, hs]
    simp [hlt]
  have hmain := h0.trans h1
  exact ⟨hmain, by unfold adjustState stateAfter; rw [hmain]⟩

/-- C6 witness: subtracting 100 units from seed product 1 (stock 15). -/
theorem c6_insufficient_stock_witness :
    adjustStock seedState "2024-03-01T00:00:00.000Z" "1" (some "subtract") (.num 100)
        = .error (.insufficientStock 15 100)
      ∧ adjustState seedState "2024-03-01T00:00:00.000Z" "1" (some "subtract") (.num 100)
        = seedState :=
  c6_insufficient_stock seedState "2024-03-01T00:00:00.000Z" "1" "subtract" (.num 100)
    1 100 15 0 (seedProducts.get ⟨0, by decide⟩)
    (by decide) (by decide) (by decide) (by decide) (by decide)
    (by decide) (by decide) (by decide) (by decide) (by decide)

/-- C9: a full update whose payload carries `description: ""` keeps the
previous description (`description || old` is falsy on the empty
string) while every other supplied field is applied; consequently a
successful full update can never turn a non-empty description into the
empty string. -/
theorem c9_put_empty_description (st : St) (now idStr : String) (b : CreateBody)
    (id : Int) (j : Nat) (old : Product)
    (hv : validateProduct b = [])
    (hid : parseIntJS idStr = some id)
    (hfind : findIdxP st.products id = some (j, old))
    (hdesc : b.description = some "")
    (hconf : st.products.any
        (fun p => jsToLower p.name == jsToLower (b.name.getD "") && p.id != id) = false) :
    ∃ upd : Product,
      putProduct st now idStr b = .ok ({ st with products := st.products.set j upd }, upd)
      ∧ upd.description = old.description
      ∧ (old.description ≠ "" → upd.description ≠ "")
      ∧ upd.name = jsTrim (b.name.getD "")
      ∧ upd.category = jsTrim (b.category.getD "")
      ∧ upd.price = parseFloatJS b.price
      ∧ upd.stock = parseIntOfVal b.stock
      ∧ upd.id = old.id
      ∧ upd.createdAt = old.createdAt
      ∧ upd.updatedAt = some now := by
  refine ⟨{ old with
      name := jsTrim (b.name.getD ""),
      category := jsTrim (b.category.getD ""),
      price := parseFloatJS b.price,
      stock := parseIntOfVal b.stock,
      description := old.description,
      updatedAt := some now }, ?_, by simp, by simp, by simp, by simp, by simp,
    by simp, by simp, by simp, by simp⟩
  have h0 : putProduct st now idStr b = putProductNum st now id b := by
    unfold putProduct
    simp only [hv, hid, if_pos rfl, if_true]
  rw [h0]
  unfold putProductNum
  rw [hfind]
  simp only [hconf, Bool.false_eq_true, if_false, hdesc, if_pos rfl, if_true]

/-- C9 witness: `PUT /products/1` on the seed with `description: ""`. -/
theorem c9_put_empty_description_witness :
    ∃ upd : Product,
      putProduct seedState "2024-03-02T00:00:00.000Z" "1"
          { name := some "Laptop", category := some "Electronics",
            price := .num (mkRat 99999 100), stock := .num 15, description := some "" }
        = .ok ({ seedState with products := seedState.products.set 0 upd }, upd)
      ∧ upd.description = (seedProducts.get ⟨0, by decide⟩).description
      ∧ ((seedProducts.get ⟨0, by decide⟩).description ≠ "" → upd.description ≠ "")
      ∧ upd.name = jsTrim ((some "Laptop" : Option String).getD "")
      ∧ upd.category = jsTrim ((some "Electronics" : Option String).getD "")
      ∧ upd.price = parseFloatJS (.num (mkRat 99999 100))
      ∧ upd.stock = parseIntOfVal (.num 15)
      ∧ upd.id = (seedProducts.get ⟨0, by decide⟩).id
      ∧ upd.createdAt = (seedProducts.get ⟨0, by decide⟩).createdAt
      ∧ upd.updatedAt = some "2024-03-02T00:00:00.000Z" :=
  c9_put_empty_description seedState "2024-03-02T00:00:00.000Z" "1"
    { name := some "Laptop", category := some "Electronics",
      price := .num (mkRat 99999 100), stock := .num 15, description := some "" }
    1 0 (seedProducts.get ⟨0, by decide⟩)
    (by decide) (by decide) (by decide) (by decide) (by decide)

/-- The post-parse lookup of `GET /products/:id` never reports an
invalid identifier. -/
lemma getProductNum_no_invalidId (st : St) (id : Int) :
    getProductNum st id ≠ .error .invalidId := by
  unfold getProductNum
  split <;> simp

/-- The post-parse body of `DELETE /products/:id` never reports an
invalid identifier. -/
lemma deleteProductNum_no_invalidId (st : St) (id : Int) :
    deleteProductNum st id ≠ .error .invalidId := by
  unfold deleteProductNum
  split <;> simp

/-- The post-parse body of `PUT /products/:id` never reports an invalid
identifier. -/
lemma putProductNum_no_invalidId (st : St) (now : String) (id : Int) (b : CreateBody) :
    putProductNum st now id b ≠ .error .invalidId := by
  unfold putProductNum
  repeat' (first | simp | split)

/-- The post-parse body of `PATCH /products/:id` never reports an
invalid identifier. -/
lemma patchProductNum_no_invalidId (st : St) (now : String) (id : Int) (b : PatchBody) :
    patchProductNum st now id b ≠ .error .invalidId := by
  unfold patchProductNum
  repeat' (first | simp | split)

/-- The post-parse body of `POST /products/:id/stock` never reports an
invalid identifier. -/
lemma adjustStockNum_no_invalidId (st : St) (now : String) (id : Int)
    (op : Option String) (qty : JVal) :
    adjustStockNum st now id op qty ≠ .error .invalidId := by
  unfold adjustStockNum
  repeat' (first | simp | split)

/-- C10: every id-addressed route parses `req.params.id` with
`parseInt(·, 10)`, so a string with a parseable leading integer (such as
`"3abc"`, which parses to `3`) is never rejected as an invalid
identifier but addressed as that integer, and the invalid-identifier
failure arises exactly from strings with no parseable leading integer
(for PUT/PATCH only after their validation middleware has passed). -/
theorem c10_lenient_id_parsing :
    parseIntJS "3abc" = some 3
    ∧ (∀ (st : St) (idStr : String) (id : Int), parseIntJS idStr = some id →
        getProduct st idStr = getProductNum st id
        ∧ deleteProduct st idStr = deleteProductNum st id
        ∧ (∀ now op qty, adjustStock st now idStr op qty = adjustStockNum st now id op qty)
        ∧ (∀ now b, validateProduct b = [] → putProduct st now idStr b = putProductNum st now id b)
        ∧ (∀ now pb, validateProductUpdate pb = [] →
            patchProduct st now idStr pb = patchProductNum st now id pb))
    ∧ (∀ st idStr, getProduct st idStr = .error .invalidId → parseIntJS idStr = none)
    ∧ (∀ st idStr, deleteProduct st idStr = .error .invalidId → parseIntJS idStr = none)
    ∧ (∀ st now idStr op qty,
        adjustStock st now idStr op qty = .error .invalidId → parseIntJS idStr = none)
    ∧ (∀ st now idStr b,
        putProduct st now idStr b = .error .invalidId → parseIntJS idStr = none)
    ∧ (∀ st now idStr pb,
        patchProduct st now idStr pb = .error .invalidId → parseIntJS idStr = none) := by
  refine ⟨by decide, ?_, ?_, ?_, ?_, ?_, ?_⟩
  · intro st idStr id h
    refine ⟨?_, ?_, ?_, ?_, ?_⟩
    · unfold getProduct; rw [h]
    · unfold deleteProduct; rw [h]
    · intro now op qty; unfold adjustStock; rw [h]
    · intro now b hv; unfold putProduct; simp only [hv, h, if_pos rfl, if_true]
    · intro now pb hv; unfold patchProduct; simp only [hv, h, if_pos rfl, if_true]
  · intro st idStr h
    cases hb : parseIntJS idStr with
    | none => rfl
    | some n =>
      exfalso
      unfold getProduct at h
      rw [hb] at h
      exact getProductNum_no_invalidId st n h
  · intro st idStr h
    cases hb : parseIntJS idStr with
    | none => rfl
    | some n =>
      exfalso
      unfold deleteProduct at h
      rw [hb] at h
      exact deleteProductNum_no_invalidId st n h
  · intro st now idStr op qty h
    cases hb : parseIntJS idStr with
    | none => rfl
    | some n =>
      exfalso
      unfold adjustStock at h
      rw [hb] at h
      exact adjustStockNum_no_invalidId st now n op qty h
  · intro st now idStr b h
    cases hb : parseIntJS idStr with
    | none => rfl
    | some n =>
      exfalso
      simp only [putProduct] at h
      by_cases hv : validateProduct b = []
      · rw [if_pos hv, hb] at h
        exact putProductNum_no_invalidId st now n b h
      · rw [if_neg hv] at h
        simp at h
  · intro st now idStr pb h
    cases hb : parseIntJS idStr with
    | none => rfl
    | some n =>
      exfalso
      simp only [patchProduct] at h
      by_cases hv : validateProductUpdate pb = []
      · rw [if_pos hv, hb] at h
        exact patchProductNum_no_invalidId st now n pb h
      · rw [if_neg hv] at h
        simp at h

/-- C10 witness: `GET /products/3abc` against the seed behaves as a
lookup of id 3. -/
theorem c10_lenient_id_parsing_witness :
    getProduct seedState "3abc" = getProductNum seedState 3 :=
  (c10_lenient_id_parsing.2.1 seedState "3abc" 3 (by decide)).1

/-- C5 counterexample: the quantity 5.5 is not a positive integer, yet
the request `{operation: "subtract", quantity: 5.5}` on seed product 1
is not rejected: `parseInt(5.5, 10)` truncates it to 5, the subtract
succeeds, and the catalog changes (stock 15 becomes 10). -/
theorem c5_fractional_quantity_accepted :
    (mkRat 11 2).isInt = false
    ∧ 0 < mkRat 11 2
    ∧ (adjustStock seedState "2024-03-01T00:00:00.000Z" "1" (some "subtract")
        (.num (mkRat 11 2))).isOk = true
    ∧ adjustState seedState "2024-03-01T00:00:00.000Z" "1" (some "subtract")
        (.num (mkRat 11 2)) ≠ seedState
    ∧ (adjustState seedState "2024-03-01T00:00:00.000Z" "1" (some "subtract")
        (.num (mkRat 11 2))).products.map Product.stock
      = [some 10, some 25, some 40, some 8] := by
  refine ⟨by decide, by decide, by decide, by decide, by decide⟩

/-- C5 (amended): a stock-adjust whose quantity does not `parseInt` to a
positive integer is rejected with the invalid-quantity failure before
the lookup, catalog unchanged (non-integer numeric quantities are
instead truncated by `parseInt`); a quantity that parses positive with
an operation that is neither `add` nor `subtract` case-insensitively is
rejected with the `InvalidOperation` failure when the product exists,
catalog unchanged. -/
theorem c5_stock_adjust_rejections (st : St) (now idStr o : String) (qty : JVal) (id : Int)
    (hid : parseIntJS idStr = some id)
    (ho : o ≠ "") (hq1 : qty ≠ JVal.undefined) (hq2 : qty ≠ JVal.null) :
    ((∀ q, parseIntOfVal qty = some q → q ≤ 0) →
        adjustStock st now idStr (some o) qty = .error .invalidQuantity
        ∧ adjustState st now idStr (some o) qty = st)
    ∧ (∀ q j p, parseIntOfVal qty = some q → 0 < q →
        findIdxP st.products id = some (j, p) →
        jsToLower o ≠ "add" → jsToLower o ≠ "subtract" →
        adjustStock st now idStr (some o) qty = .error .invalidOperation
        ∧ adjustState st now idStr (some o) qty = st) := by
  have h0 : adjustStock st now idStr (some o) qty
      = adjustStockNum st now id (some o) qty := by
    unfold adjustStock; rw [hid]
  constructor
  · intro hq
    have h1 : adjustStockNum st now id (some o) qty = .error .invalidQuantity := by
      unfold adjustStockNum
      simp only [ho, hq1, hq2, decide_eq_true_eq, if_false, Option.getD_some]
      rw [if_neg (show ¬ ((decide False || decide False || decide False) = true) from by decide)]
      cases hpv : parseIntOfVal qty with
      | none => rfl
      | some q => exact if_pos (hq q hpv)
    have hmain := h0.trans h1
    exact ⟨hmain, by unfold adjustState stateAfter; rw [hmain]⟩
  · intro q j p hpv hqpos hfind hadd hsub
    have h1 : adjustStockNum st now id (some o) qty = .error .invalidOperation := by
      unfold adjustStockNum
      rw [hpv]
      simp only [ho, hq1, hq2, decide_eq_true_eq, if_false, Option.getD_some, hfind]
      rw [if_neg (show ¬ ((decide False || decide False || decide False) = true) from by decide),
        if_neg (show ¬ (q ≤ 0) from by omega), if_neg hadd, if_neg hsub]
    have hmain := h0.trans h1
    exact ⟨hmain, by unfold adjustState stateAfter; rw [hmain]⟩

/-- C5 witness: `{operation: "multiply", quantity: 0}` on seed product 1
is rejected with the invalid-quantity failure and the catalog is
unchanged. -/
theorem c5_stock_adjust_rejections_witness :
    adjustStock seedState "2024-03-01T00:00:00.000Z" "1" (some "multiply") (.num 0)
      = .error .invalidQuantity
    ∧ adjustState seedState "2024-03-01T00:00:00.000Z" "1" (some "multiply") (.num 0)
      = seedState :=
  (c5_stock_adjust_rejections seedState "2024-03-01T00:00:00.000Z" "1" "multiply"
      (.num 0) 1 (by decide) (by decide) (by decide) (by decide)).1
    (fun q hq => by
      have h0 : parseIntOfVal (JVal.num 0) = some 0 := by decide
      rw [h0] at hq
      have hq0 : q = 0 := (Option.some.inj hq).symm
      omega)

/-- Creation payload with the numeric but non-integer stock 5.5. -/
def fracStockBody : CreateBody :=
  { name := some "Widget", category := some "Misc", price := .num 1,
    stock := .num (mkRat 11 2), description := none }

/-- Creation payload with the non-numeric stock "abc". -/
def nonNumericStockBody : CreateBody :=
  { name := some "Widget", category := some "Misc", price := .num 1,
    stock := .str "abc", description := none }

/-- C7 counterexample: a numeric-but-non-integer stock (5.5) and a
non-numeric stock ("abc") are both rejected, but with the *same* single
violation `"Stock must be a non-negative integer"` — the two cases are
not distinct violations. -/
theorem c7_stock_violations_not_distinct :
    validateProduct fracStockBody = ["Stock must be a non-negative integer"]
    ∧ validateProduct nonNumericStockBody = ["Stock must be a non-negative integer"]
    ∧ (mkRat 11 2).isInt = false
    ∧ jsValToNumber (.str "abc") = none := by
  refine ⟨by decide, by decide, by decide, by decide⟩

/-- C7 (amended): both validators reject a numeric-but-non-integer
stock and a (supplied) non-numeric stock, and in both cases report the
same violation, `"Stock must be a non-negative integer"` — a validation
failure in both cases, but not two distinct violations. -/
theorem c7_stock_violation_same_message (v w : JVal) (q : Rat)
    (hv : jsValToNumber v = some q) (hq : q.isInt = false)
    (hw : jsValToNumber w = none) (hw1 : w ≠ JVal.undefined) (hw2 : w ≠ JVal.null) :
    stockErrorsCreate v = ["Stock must be a non-negative integer"]
    ∧ stockErrorsCreate w = ["Stock must be a non-negative integer"]
    ∧ stockErrorsCreate v = stockErrorsCreate w
    ∧ stockErrorsUpdate v = stockErrorsUpdate w
    ∧ (∀ b : CreateBody, b.stock = v →
        "Stock must be a non-negative integer" ∈ validateProduct b)
    ∧ (∀ b : CreateBody, b.stock = w →
        "Stock must be a non-negative integer" ∈ validateProduct b)
    ∧ (∀ b : PatchBody, b.stock = v →
        "Stock must be a non-negative integer" ∈ validateProductUpdate b)
    ∧ (∀ b : PatchBody, b.stock = w →
        "Stock must be a non-negative integer" ∈ validateProductUpdate b) := by
  have hvu : v ≠ JVal.undefined := by
    intro e; rw [e] at hv; exact Option.noConfusion hv
  have hvn : v ≠ JVal.null := by
    intro e; rw [e] at hv
    have hq0 : q = 0 := (Option.some.inj hv).symm
    rw [hq0] at hq
    exact absurd hq (by decide)
  have hcreate : ∀ u : JVal, u ≠ JVal.undefined → u ≠ JVal.null →
      stockErrorsCreate u = (match jsValToNumber u with
        | none => ["Stock must be a non-negative integer"]
        | some r =>
          if ¬ r.isInt ∨ r < 0 then ["Stock must be a non-negative integer"] else []) := by
    intro u h1 h2
    cases u
    · exact absurd rfl h1
    · exact absurd rfl h2
    · rfl
    · rfl
    · rfl
  have hupdate : ∀ u : JVal, u ≠ JVal.undefined →
      stockErrorsUpdate u = (match jsValToNumber u with
        | none => ["Stock must be a non-negative integer"]
        | some r =>
          if ¬ r.isInt ∨ r < 0 then ["Stock must be a non-negative integer"] else []) := by
    intro u h1
    cases u
    · exact absurd rfl h1
    · rfl
    · rfl
    · rfl
    · rfl
  have hv1 : stockErrorsCreate v = ["Stock must be a non-negative integer"] := by
    rw [hcreate v hvu hvn, hv]
    exact if_pos (Or.inl (by simp [hq]))
  have hwc : stockErrorsCreate w = ["Stock must be a non-negative integer"] := by
    rw [hcreate w hw1 hw2, hw]
  have hv2 : stockErrorsUpdate v = ["Stock must be a non-negative integer"] := by
    rw [hupdate v hvu, hv]
    exact if_pos (Or.inl (by simp [hq]))
  have hwu : stockErrorsUpdate w = ["Stock must be a non-negative integer"] := by
    rw [hupdate w hw1, hw]
  refine ⟨hv1, hwc, hv1.trans hwc.symm, hv2.trans hwu.symm, ?_, ?_, ?_, ?_⟩
  · intro b hb
    unfold validateProduct
    rw [hb, hv1]
    simp
  · intro b hb
    unfold validateProduct
    rw [hb, hwc]
    simp
  · intro b hb
    unfold validateProductUpdate
    rw [hb, hv2]
    simp
  · intro b hb
    unfold validateProductUpdate
    rw [hb, hwu]
    simp

/-- C7 witness: the amended statement at stock 5.5 and stock "abc",
including its effect on `validateProduct` at a concrete payload. -/
theorem c7_stock_violation_same_message_witness :
    stockErrorsCreate (.num (mkRat 11 2)) = ["Stock must be a non-negative integer"]
    ∧ stockErrorsCreate (.str "abc") = ["Stock must be a non-negative integer"]
    ∧ "Stock must be a non-negative integer" ∈ validateProduct fracStockBody := by
  have h := c7_stock_violation_same_message (.num (mkRat 11 2)) (.str "abc")
    (mkRat 11 2) (by decide) (by decide) (by decide) (by decide) (by decide)
  exact ⟨h.1, h.2.1, h.2.2.2.2.1 fracStockBody rfl⟩

/-- A successful create returns the record carrying the current counter
value and bumps the counter by one. -/
lemma createProduct_ok_ids (st : St) (now : String) (b : CreateBody)
    (st' : St) (p : Product) (h : createProduct st now b = .ok (st', p)) :
    p.id = st.currentId ∧ st'.currentId = st.currentId + 1 := by
  simp only [createProduct] at h
  repeat' split at h
  all_goals simp_all
  obtain ⟨h1, h2⟩ := h
  constructor
  · rw [← h2]
  · rw [← h1]

/-- A successful full update leaves the id counter unchanged. -/
lemma putProductNum_ok_currentId (st : St) (now : String) (id : Int) (b : CreateBody)
    (st' : St) (p : Product) (h : putProductNum st now id b = .ok (st', p)) :
    st'.currentId = st.currentId := by
  simp only [putProductNum] at h
  repeat' split at h
  all_goals simp_all
  all_goals obtain ⟨h1, h2⟩ := h
  all_goals rw [← h1]

/-- A successful partial update leaves the id counter unchanged. -/
lemma patchProductNum_ok_currentId (st : St) (now : String) (id : Int) (b : PatchBody)
    (st' : St) (p : Product) (h : patchProductNum st now id b = .ok (st', p)) :
    st'.currentId = st.currentId := by
  simp only [patchProductNum] at h
  repeat' split at h
  all_goals simp_all
  all_goals obtain ⟨h1, h2⟩ := h
  all_goals rw [← h1]

/-- A successful delete leaves the id counter unchanged. -/
lemma deleteProductNum_ok_currentId (st : St) (id : Int)
    (st' : St) (p : Product) (h : deleteProductNum st id = .ok (st', p)) :
    st'.currentId = st.currentId := by
  simp only [deleteProductNum] at h
  repeat' split at h
  all_goals simp_all
  all_goals obtain ⟨h1, h2⟩ := h
  all_goals rw [← h1]

/-- A successful stock adjust leaves the id counter unchanged. -/
lemma adjustStockNum_ok_currentId (st : St) (now : String) (id : Int)
    (op : Option String) (qty : JVal)
    (st' : St) (p : Product) (h : adjustStockNum st now id op qty = .ok (st', p)) :
    st'.currentId = st.currentId := by
  simp only [adjustStockNum] at h
  repeat' split at h
  all_goals simp_all
  all_goals obtain ⟨h1, h2⟩ := h
  all_goals rw [← h1]

/-- Wrapper form of the full-update counter lemma. -/
lemma putProduct_ok_currentId (st : St) (now idStr : String) (b : CreateBody)
    (st' : St) (p : Product) (h : putProduct st now idStr b = .ok (st', p)) :
    st'.currentId = st.currentId := by
  simp only [putProduct] at h
  split at h
  · cases hp : parseIntJS idStr with
    | none => rw [hp] at h; exact absurd h (by simp)
    | some id => rw [hp] at h; exact putProductNum_ok_currentId st now id b st' p h
  · exact absurd h (by simp)

/-- Wrapper form of the partial-update counter lemma. -/
lemma patchProduct_ok_currentId (st : St) (now idStr : String) (b : PatchBody)
    (st' : St) (p : Product) (h : patchProduct st now idStr b = .ok (st', p)) :
    st'.currentId = st.currentId := by
  simp only [patchProduct] at h
  split at h
  · cases hp : parseIntJS idStr with
    | none => rw [hp] at h; exact absurd h (by simp)
    | some id => rw [hp] at h; exact patchProductNum_ok_currentId st now id b st' p h
  · exact absurd h (by simp)

/-- Wrapper form of the delete counter lemma. -/
lemma deleteProduct_ok_currentId (st : St) (idStr : String)
    (st' : St) (p : Product) (h : deleteProduct st idStr = .ok (st', p)) :
    st'.currentId = st.currentId := by
  simp only [deleteProduct] at h
  cases hp : parseIntJS idStr with
  | none => rw [hp] at h; exact absurd h (by simp)
  | some id => rw [hp] at h; exact deleteProductNum_ok_currentId st id st' p h

/-- Wrapper form of the stock-adjust counter lemma. -/
lemma adjustStock_ok_currentId (st : St) (now idStr : String)
    (op : Option String) (qty : JVal)
    (st' : St) (p : Product) (h : adjustStock st now idStr op qty = .ok (st', p)) :
    st'.currentId = st.currentId := by
  simp only [adjustStock] at h
  cases hp : parseIntJS idStr with
  | none => rw [hp] at h; exact absurd h (by simp)
  | some id => rw [hp] at h; exact adjustStockNum_ok_currentId st now id op qty st' p h

/-- No request ever decreases the id counter. -/
lemma step_currentId_le (st : St) (o : Op) : st.currentId ≤ (step st o).currentId := by
  cases o with
  | create now b =>
    simp only [step]
    cases h : createProduct st now b with
    | ok r =>
      obtain ⟨st2, p2⟩ := r
      have hc := createProduct_ok_ids st now b st2 p2 h
      simp only [stateAfter]
      omega
    | error e => simp only [stateAfter]; exact le_refl _
  | put now idStr b =>
    simp only [step]
    cases h : putProduct st now idStr b with
    | ok r =>
      obtain ⟨st2, p2⟩ := r
      have hc := putProduct_ok_currentId st now idStr b st2 p2 h
      simp only [stateAfter]
      omega
    | error e => simp only [stateAfter]; exact le_refl _
  | patch now idStr b =>
    simp only [step]
    cases h : patchProduct st now idStr b with
    | ok r =>
      obtain ⟨st2, p2⟩ := r
      have hc := patchProduct_ok_currentId st now idStr b st2 p2 h
      simp only [stateAfter]
      omega
    | error e => simp only [stateAfter]; exact le_refl _
  | del idStr =>
    simp only [step]
    cases h : deleteProduct st idStr with
    | ok r =>
      obtain ⟨st2, p2⟩ := r
      have hc := deleteProduct_ok_currentId st idStr st2 p2 h
      simp only [stateAfter]
      omega
    | error e => simp only [stateAfter]; exact le_refl _
  | adjust now idStr op qty =>
    simp only [step]
    cases h : adjustStock st now idStr op qty with
    | ok r =>
      obtain ⟨st2, p2⟩ := r
      have hc := adjustStock_ok_currentId st now idStr op qty st2 p2 h
      simp only [stateAfter]
      omega
    | error e => simp only [stateAfter]; exact le_refl _

/-- Every id a create returns along a trace is at least the counter
value the trace started from. -/
lemma createdIds_lb : ∀ (ops : List Op) (st : St), ∀ a ∈ createdIds st ops, st.currentId ≤ a := by
  intro ops
  induction ops with
  | nil => intro st a ha; simp [createdIds] at ha
  | cons o os ih =>
    intro st a ha
    cases o with
    | create now b =>
      simp only [createdIds] at ha
      cases h : createProduct st now b with
      | ok r =>
        obtain ⟨st2, p2⟩ := r
        rw [h] at ha
        simp only [] at ha
        rcases List.mem_cons.mp ha with h1 | h1
        · have h2 := (createProduct_ok_ids st now b st2 p2 h).1
          omega
        · have h2 := (createProduct_ok_ids st now b st2 p2 h).2
          have h3 := ih st2 a h1
          omega
      | error e =>
        rw [h] at ha
        exact ih st a ha
    | put now idStr b =>
      simp only [createdIds] at ha
      have h3 := ih _ a ha
      have h4 := step_currentId_le st (Op.put now idStr b)
      omega
    | patch now idStr b =>
      simp only [createdIds] at ha
      have h3 := ih _ a ha
      have h4 := step_currentId_le st (Op.patch now idStr b)
      omega
    | del idStr =>
      simp only [createdIds] at ha
      have h3 := ih _ a ha
      have h4 := step_currentId_le st (Op.del idStr)
      omega
    | adjust now idStr op qty =>
      simp only [createdIds] at ha
      have h3 := ih _ a ha
      have h4 := step_currentId_le st (Op.adjust now idStr op qty)
      omega

/-- The ids returned by the creates of a trace are strictly increasing
in order of occurrence. -/
lemma createdIds_chain : ∀ (ops : List Op) (st : St),
    List.Chain' (· < ·) (createdIds st ops) := by
  intro ops
  induction ops with
  | nil => intro st; simp [createdIds]
  | cons o os ih =>
    intro st
    cases o with
    | create now b =>
      simp only [createdIds]
      cases h : createProduct st now b with
      | ok r =>
        obtain ⟨st2, p2⟩ := r
        rw [List.chain'_cons']
        constructor
        · intro y hy
          have hy' : y ∈ createdIds st2 os := List.mem_of_mem_head? hy
          have h1 := createdIds_lb os st2 y hy'
          have h2 := (createProduct_ok_ids st now b st2 p2 h).1
          have h3 := (createProduct_ok_ids st now b st2 p2 h).2
          omega
        · exact ih st2
      | error e => exact ih st
    | put now idStr b => simp only [createdIds]; exact ih _
    | patch now idStr b => simp only [createdIds]; exact ih _
    | del idStr => simp only [createdIds]; exact ih _
    | adjust now idStr op qty => simp only [createdIds]; exact ih _

/-- C3: along any request sequence from the seed catalog, the assigned
ids — the seed ids followed by the id of each successful create — are
pairwise strictly increasing: every created id exceeds every previously
assigned id, deletions notwithstanding, and no id is ever reused. -/
theorem c3_assigned_ids_strictly_increase (ops : List Op) :
    List.Pairwise (· < ·) (assignedIds ops) := by
  have hseed : seedProducts.map Product.id = [1, 2, 3, 4] := by decide
  rw [← List.chain'_iff_pairwise]
  unfold assignedIds
  rw [List.chain'_append]
  refine ⟨?_, createdIds_chain ops seedState, ?_⟩
  · rw [hseed, List.chain'_iff_pairwise]; decide
  · intro x hx y hy
    rw [hseed] at hx
    have hlast : ([1, 2, 3, 4] : List Int).getLast? = some 4 := by decide
    rw [hlast] at hx
    have hx4 : x = 4 := by
      cases hx
      rfl
    have hy' : y ∈ createdIds seedState ops := List.mem_of_mem_head? hy
    have h5 := createdIds_lb ops seedState y hy'
    have h6 : seedState.currentId = 5 := rfl
    omega

/-- The normalized page size is always positive. -/
lemma safeLimit_pos (v : Option String) : 0 < safeLimitOf v := by
  unfold safeLimitOf
  cases h : limitNumOf v with
  | none => decide
  | some n =>
    show 0 < if 0 < n then n.toNat else 10
    by_cases hn : 0 < n
    · rw [if_pos hn]; omega
    · rw [if_neg hn]; decide

/-- Congruence for `flatMap` under pointwise equality on members. -/
lemma flatMap_congr_mem {α β : Type} (l : List α) (f g : α → List β)
    (h : ∀ x ∈ l, f x = g x) : l.flatMap f = l.flatMap g := by
  induction l with
  | nil => rfl
  | cons a t ih =>
    simp only [List.flatMap_cons]
    rw [h a (by simp), ih (fun x hx => h x (by simp [hx]))]

/-- Slicing a list into `ceil(length / k)` consecutive chunks of size
`k` and concatenating them reproduces the list. -/
lemma chunksEq {α : Type} (k : Nat) (hk : 0 < k) :
    ∀ (n : Nat) (l : List α), l.length = n →
      (List.range ((l.length + k - 1) / k)).flatMap (fun i => (l.drop (i * k)).take k) = l := by
  intro n
  induction n using Nat.strong_induction_on with
  | _ n ih =>
    intro l hl
    cases l with
    | nil => simp
    | cons a t =>
      have hL : 0 < (a :: t).length := by simp
      have htp : ((a :: t).length + k - 1) / k
          = (((a :: t).length - k) + k - 1) / k + 1 := by
        rcases Nat.lt_or_ge (a :: t).length k with hlt | hge
        · have h1 : (a :: t).length - k = 0 := by omega
          have h2 : ((a :: t).length + k - 1) / k = 1 := by
            apply Nat.div_eq_of_lt_le <;> omega
          have h3 : ((0:Nat) + k - 1) / k = 0 := by
            apply Nat.div_eq_of_lt
            omega
          rw [h1, h2, h3]
        · have h4 : (a :: t).length + k - 1 = (((a :: t).length - k) + k - 1) + k := by
            omega
          rw [h4, Nat.add_div_right _ hk]
      rw [htp, List.range_succ_eq_map, List.flatMap_cons, List.flatMap_map]
      simp only [Nat.zero_mul, List.drop_zero]
      have harm : ∀ i : Nat,
          ((a :: t).drop (Nat.succ i * k)).take k
            = (((a :: t).drop k).drop (i * k)).take k := by
        intro i
        rw [List.drop_drop]
        congr 2
        rw [Nat.succ_mul]
        exact Nat.add_comm _ _
      simp only [harm]
      have hres := ih ((a :: t).length - k)
        (by rw [← hl]; exact Nat.sub_lt hL hk)
        ((a :: t).drop k) (by rw [List.length_drop])
      rw [List.length_drop] at hres
      rw [hres]
      exact List.take_append_drop k (a :: t)

/-- C4: for every catalog state and query, requesting pages 1 through
`metadata.totalPages` (all other parameters held equal, `pstr i` being
any query-string spelling of page `i+1`) and concatenating the
`products` arrays reproduces the full filtered-and-sorted sequence,
each record exactly once. -/
theorem c4_pagination_partition (st : St) (q : Query) (pstr : Nat → Option String)
    (hp : ∀ i < (queryResult st q).metadata.totalPages, safePageOf (pstr i) = i + 1) :
    (List.range (queryResult st q).metadata.totalPages).flatMap
        (fun i => (queryResult st { q with page := pstr i }).products)
      = filteredSorted st q := by
  have hk : 0 < safeLimitOf q.limit := safeLimit_pos q.limit
  have hslice : ∀ i, i < (queryResult st q).metadata.totalPages →
      (queryResult st { q with page := pstr i }).products
        = ((filteredSorted st q).drop (i * safeLimitOf q.limit)).take (safeLimitOf q.limit) := by
    intro i hi
    have h0 : (queryResult st { q with page := pstr i }).products
        = ((filteredSorted st q).drop
            ((safePageOf (pstr i) - 1) * safeLimitOf q.limit)).take (safeLimitOf q.limit) := rfl
    rw [h0, hp i hi]
    simp only [Nat.add_sub_cancel]
  rw [flatMap_congr_mem (List.range (queryResult st q).metadata.totalPages) _ _
    (fun i hi => hslice i (List.mem_range.mp hi))]
  exact chunksEq (safeLimitOf q.limit) hk (filteredSorted st q).length (filteredSorted st q) rfl

/-- A query with `limit=2` and everything else absent. -/
def pagedQuery : Query :=
  { category := none, minPrice := none, maxPrice := none, inStock := none,
    search := none, sortBy := none, sortOrder := none, page := none,
    limit := some "2" }

/-- C4 witness: the seed catalog at limit 2 (two pages of two records)
concatenates back to the full filtered-and-sorted sequence. -/
theorem c4_pagination_partition_witness :
    (List.range (queryResult seedState pagedQuery).metadata.totalPages).flatMap
        (fun i => (queryResult seedState
          { pagedQuery with page := some (if i = 0 then "1" else "2") }).products)
      = filteredSorted seedState pagedQuery :=
  c4_pagination_partition seedState pagedQuery (fun i => some (if i = 0 then "1" else "2"))
    (by
      intro i hi
      have h2 : (queryResult seedState pagedQuery).metadata.totalPages = 2 := by decide
      rw [h2] at hi
      interval_cases i
      · decide
      · decide)

/-- A whitespace character is not a digit. -/
lemma wsNotDigit (c : Char) (h : c.isWhitespace = true) : c.isDigit = false := by
  simp [Char.isWhitespace] at h
  rcases h with ((rfl | rfl) | rfl) | rfl <;> decide

/-- A whitespace character is not a sign character. -/
lemma wsNotSign (c : Char) (h : c.isWhitespace = true) : c ≠ '-' ∧ c ≠ '+' := by
  simp [Char.isWhitespace] at h
  rcases h with ((rfl | rfl) | rfl) | rfl <;> exact ⟨by decide, by decide⟩

/-- `ratSigned` agrees with rational multiplication by the sign. -/
lemma ratSigned_eq (sg : Int) (v : Rat) : ratSigned sg v = (sg : Rat) * v := by
  rw [ratSigned, Rat.mkRat_eq_div]
  push_cast
  rw [mul_div_assoc, Rat.num_div_den]

/-- `ratMul` is rational multiplication. -/
lemma ratMul_eq (a b : Rat) : ratMul a b = a * b := by
  rw [ratMul, Rat.mkRat_eq_div]
  push_cast
  rw [← div_mul_div_comm, Rat.num_div_den, Rat.num_div_den]

/-- `ratAdd` is rational addition. -/
lemma ratAdd_eq (a b : Rat) : ratAdd a b = a + b := by
  have hb : ((a.den : Rat)) ≠ 0 := Nat.cast_ne_zero.mpr a.den_ne_zero
  have hd : ((b.den : Rat)) ≠ 0 := Nat.cast_ne_zero.mpr b.den_ne_zero
  rw [ratAdd, Rat.mkRat_eq_div]
  push_cast
  conv_rhs => rw [← Rat.num_div_den a, ← Rat.num_div_den b]
  rw [div_add_div _ _ hb hd]
  congr 1
  ring

/-- `mkRat n 1` is the natural number `n`. -/
lemma mkRat_natCast (n : Nat) : mkRat (n : Int) 1 = (n : Rat) := by
  rw [Rat.mkRat_eq_div]
  push_cast
  simp

/-- Powers of ten are positive. -/
lemma pow10_pos (e : Int) : 0 < pow10 e := by
  unfold pow10
  split
  · rw [Rat.mkRat_eq_div]
    apply div_pos
    · push_cast
      positivity
    · norm_num
  · rw [Rat.mkRat_eq_div]
    apply div_pos
    · norm_num
    · push_cast
      positivity

/-- A mantissa with a positive integer part is positive. -/
lemma mantissaVal_pos (d1 d2 : List Char) (h : 0 < digitsToNat d1) :
    0 < mantissaVal d1 d2 := by
  unfold mantissaVal
  rw [ratAdd_eq, mkRat_natCast]
  have h2 : (0:Rat) ≤ mkRat (digitsToNat d2 : Int) ((10 : Nat) ^ d2.length) := by
    rw [Rat.mkRat_eq_div]
    apply div_nonneg
    · push_cast
      positivity
    · push_cast
      positivity
  have h1 : (0:Rat) < (digitsToNat d1 : Rat) := by exact_mod_cast h
  linarith

/-- `splitSign` leaves a list alone when its head is not a sign. -/
lemma splitSign_other (c : Char) (r : List Char) (h1 : c ≠ '-') (h2 : c ≠ '+') :
    splitSign (c :: r) = (1, c :: r) := by
  unfold splitSign
  split <;> simp_all

/-- The sign returned by `splitSign` is `1` or `-1`. -/
lemma splitSign_sg (l : List Char) : (splitSign l).1 = 1 ∨ (splitSign l).1 = -1 := by
  unfold splitSign
  split <;> simp

/-- Appending a suffix commutes with `splitSign` on a nonempty list. -/
lemma splitSign_append (c : Char) (cs' t : List Char) :
    splitSign ((c :: cs') ++ t) = ((splitSign (c :: cs')).1, (splitSign (c :: cs')).2 ++ t) := by
  by_cases h1 : c = '-'
  · subst h1; rfl
  · by_cases h2 : c = '+'
    · subst h2; rfl
    · rw [show (c :: cs') ++ t = c :: (cs' ++ t) from rfl,
        splitSign_other c (cs' ++ t) h1 h2, splitSign_other c cs' h1 h2]
      rfl

/-- The head surviving `dropWhile` fails the predicate. -/
lemma dropWhile_head_not (p : α → Bool) :
    ∀ (l : List α) (c1 : α) (r2 : List α), l.dropWhile p = c1 :: r2 → p c1 = false := by
  intro l
  induction l with
  | nil => intro c1 r2 h; simp at h
  | cons a l' ih =>
    intro c1 r2 h
    rw [List.dropWhile_cons] at h
    by_cases hp : p a
    · rw [if_pos hp] at h
      exact ih c1 r2 h
    · rw [if_neg hp] at h
      cases h
      exact Bool.eq_false_iff.mpr hp

/-- A list is its trailing-whitespace-stripped prefix plus whitespace. -/
lemma dropTrailing_decomp (u : List Char) :
    ∃ t, u = dropTrailingWS u ++ t ∧ ∀ c ∈ t, c.isWhitespace = true := by
  refine ⟨(u.reverse.takeWhile (fun c => c.isWhitespace)).reverse, ?_, ?_⟩
  · unfold dropTrailingWS
    calc u = u.reverse.reverse := (List.reverse_reverse u).symm
      _ = ((u.reverse.takeWhile (fun c => c.isWhitespace))
            ++ (u.reverse.dropWhile (fun c => c.isWhitespace))).reverse := by
          rw [List.takeWhile_append_dropWhile]
      _ = (u.reverse.dropWhile (fun c => c.isWhitespace)).reverse
            ++ (u.reverse.takeWhile (fun c => c.isWhitespace)).reverse := by
          rw [List.reverse_append]
  · intro c hc
    rw [List.mem_reverse] at hc
    exact List.mem_takeWhile_imp hc

/-- `parseIntJS` after the sign has been split off. -/
def parseIntBody (sg : Int) (r : List Char) : Option Int :=
  let d := r.takeWhile Char.isDigit
  if d.isEmpty then none else some (sg * (digitsToNat d : Int))

/-- `parseIntJS` factored through `splitSign`. -/
lemma parseIntJS_decomp (s : String) :
    parseIntJS s
      = parseIntBody (splitSign (dropWS s.data)).1 (splitSign (dropWS s.data)).2 := rfl

/-- `strNumCore` after the sign has been split off. -/
def strNumBody (sg : Int) (r : List Char) : Option Rat :=
  let d1 := r.takeWhile Char.isDigit
  let r1 := r.dropWhile Char.isDigit
  match r1 with
  | [] => if d1.isEmpty then none else some (ratSigned sg (mkRat (digitsToNat d1) 1))
  | '.' :: r2 =>
    let d2 := r2.takeWhile Char.isDigit
    let r3 := r2.dropWhile Char.isDigit
    if d1.isEmpty && d2.isEmpty then none
    else match r3 with
      | [] => some (ratSigned sg (mantissaVal d1 d2))
      | 'e' :: r4 =>
        (parseExpSuffix r4).map (fun e => ratSigned sg (ratMul (mantissaVal d1 d2) (pow10 e)))
      | 'E' :: r4 =>
        (parseExpSuffix r4).map (fun e => ratSigned sg (ratMul (mantissaVal d1 d2) (pow10 e)))
      | _ => none
  | 'e' :: r4 =>
    if d1.isEmpty then none
    else (parseExpSuffix r4).map
      (fun e => ratSigned sg (ratMul (mkRat (digitsToNat d1) 1) (pow10 e)))
  | 'E' :: r4 =>
    if d1.isEmpty then none
    else (parseExpSuffix r4).map
      (fun e => ratSigned sg (ratMul (mkRat (digitsToNat d1) 1) (pow10 e)))
  | _ => none

/-- `strNumCore` factored through `splitSign`. -/
lemma strNumCore_decomp (cs : List Char) :
    strNumCore cs = strNumBody (splitSign cs).1 (splitSign cs).2 := rfl

/-- Core relation between the two numeric coercions: when the whole
(trailing-whitespace-stripped) string is a valid numeric literal and
the leading-digit parse yields a positive integer, the literal value is
positive. -/
lemma body_pos (sg : Int) (r t : List Char) (q : Rat) (k : Int)
    (hsg : sg = 1 ∨ sg = -1)
    (htws : ∀ c ∈ t, c.isWhitespace = true)
    (hnum : strNumBody sg r = some q)
    (hint : parseIntBody sg (r ++ t) = some k)
    (hk : 0 < k) : 0 < q := by
  have htake_t : t.takeWhile Char.isDigit = [] := by
    cases t with
    | nil => rfl
    | cons c t' =>
      simp [List.takeWhile_cons, wsNotDigit c (htws c (List.mem_cons_self c t'))]
  simp only [parseIntBody] at hint
  rw [List.takeWhile_append] at hint
  by_cases hall : ((r.takeWhile Char.isDigit).length = r.length)
  · have hreq : r.takeWhile Char.isDigit = r :=
      (List.takeWhile_prefix _).eq_of_length hall
    rw [if_pos hall, htake_t, List.append_nil] at hint
    have hr1nil : r.dropWhile Char.isDigit = [] := by
      have h0 := List.takeWhile_append_dropWhile Char.isDigit r
      rw [hreq] at h0
      have h1 := congrArg List.length h0
      rw [List.length_append] at h1
      have h2 : (r.dropWhile Char.isDigit).length = 0 := by omega
      exact List.eq_nil_of_length_eq_zero h2
    by_cases hre : r.isEmpty
    · rw [if_pos hre] at hint
      exact absurd hint (by simp)
    · rw [if_neg hre] at hint
      have hkval : sg * (digitsToNat r : Int) = k := Option.some.inj hint
      simp only [strNumBody] at hnum
      split at hnum
      · rw [hreq] at hnum
        rw [if_neg hre] at hnum
        have hq := Option.some.inj hnum
        rw [← hq, ratSigned_eq, mkRat_natCast]
        have hcast : ((sg : Rat)) * ((digitsToNat r : Nat) : Rat)
            = ((sg * (digitsToNat r : Int) : Int) : Rat) := by
          push_cast
          ring
        rw [hcast, hkval]
        exact_mod_cast hk
      all_goals simp_all
  · rw [if_neg hall] at hint
    by_cases hde : (r.takeWhile Char.isDigit).isEmpty
    · rw [if_pos hde] at hint
      exact absurd hint (by simp)
    · rw [if_neg hde] at hint
      have hkval : sg * (digitsToNat (r.takeWhile Char.isDigit) : Int) = k :=
        Option.some.inj hint
      have hNnn : (0:Int) ≤ (digitsToNat (r.takeWhile Char.isDigit) : Int) :=
        Int.natCast_nonneg _
      have hsg1 : sg = 1 := by
        rcases hsg with rfl | rfl
        · rfl
        · omega
      subst hsg1
      have hN1 : 0 < digitsToNat (r.takeWhile Char.isDigit) := by
        have h3 : (0:Int) < (digitsToNat (r.takeWhile Char.isDigit) : Int) := by omega
        exact_mod_cast h3
      have hone : (((1:Int)) : Rat) = 1 := by norm_num
      simp only [strNumBody] at hnum
      split at hnum
      · rename_i heq
        have h0 := List.takeWhile_append_dropWhile Char.isDigit r
        rw [heq, List.append_nil] at h0
        exact absurd (by rw [h0]) hall
      · rename_i r2 heq
        have hde2 : (r.takeWhile Char.isDigit).isEmpty = false :=
          Bool.eq_false_iff.mpr hde
        rw [hde2] at hnum
        rw [if_neg (by simp)] at hnum
        split at hnum
        · have hq := Option.some.inj hnum
          rw [← hq, ratSigned_eq, hone, one_mul]
          exact mantissaVal_pos _ _ hN1
        · rename_i r4 heq2
          cases hexp : parseExpSuffix r4 with
          | none => rw [hexp] at hnum; exact absurd hnum (by simp)
          | some e =>
            rw [hexp] at hnum
            have hq : ratSigned 1 (ratMul (mantissaVal (r.takeWhile Char.isDigit)
                (r2.takeWhile Char.isDigit)) (pow10 e)) = q := by
              simpa using hnum
            rw [← hq, ratSigned_eq, hone, one_mul, ratMul_eq]
            exact mul_pos (mantissaVal_pos _ _ hN1) (pow10_pos e)
        · rename_i r4 heq2
          cases hexp : parseExpSuffix r4 with
          | none => rw [hexp] at hnum; exact absurd hnum (by simp)
          | some e =>
            rw [hexp] at hnum
            have hq : ratSigned 1 (ratMul (mantissaVal (r.takeWhile Char.isDigit)
                (r2.takeWhile Char.isDigit)) (pow10 e)) = q := by
              simpa using hnum
            rw [← hq, ratSigned_eq, hone, one_mul, ratMul_eq]
            exact mul_pos (mantissaVal_pos _ _ hN1) (pow10_pos e)
        · exact absurd hnum (by simp)
      · rename_i r4 heq
        rw [if_neg hde] at hnum
        cases hexp : parseExpSuffix r4 with
        | none => rw [hexp] at hnum; exact absurd hnum (by simp)
        | some e =>
          rw [hexp] at hnum
          have hq : ratSigned 1 (ratMul (mkRat (digitsToNat
              (r.takeWhile Char.isDigit) : Int) 1) (pow10 e)) = q := by
            simpa using hnum
          rw [← hq, ratSigned_eq, hone, one_mul, ratMul_eq, mkRat_natCast]
          have hpos : (0:Rat) < ((digitsToNat (r.takeWhile Char.isDigit) : Nat) : Rat) := by
            exact_mod_cast hN1
          exact mul_pos hpos (pow10_pos e)
      · rename_i r4 heq
        rw [if_neg hde] at hnum
        cases hexp : parseExpSuffix r4 with
        | none => rw [hexp] at hnum; exact absurd hnum (by simp)
        | some e =>
          rw [hexp] at hnum
          have hq : ratSigned 1 (ratMul (mkRat (digitsToNat
              (r.takeWhile Char.isDigit) : Int) 1) (pow10 e)) = q := by
            simpa using hnum
          rw [← hq, ratSigned_eq, hone, one_mul, ratMul_eq, mkRat_natCast]
          have hpos : (0:Rat) < ((digitsToNat (r.takeWhile Char.isDigit) : Nat) : Rat) := by
            exact_mod_cast hN1
          exact mul_pos hpos (pow10_pos e)
      · exact absurd hnum (by simp)

/-- If `Number(s)` is some value and `parseInt(s, 10)` is a positive
integer, that value is positive. -/
lemma number_pos_of_parseInt_pos (s : String) (q : Rat) (k : Int)
    (hnum : jsStrToNumber s = some q) (hint : parseIntJS s = some k) (hk : 0 < k) :
    0 < q := by
  rw [parseIntJS_decomp] at hint
  simp only [jsStrToNumber] at hnum
  obtain ⟨t, hdecomp, htws⟩ := dropTrailing_decomp (dropWS s.data)
  by_cases hempty : (dropTrailingWS (dropWS s.data)).isEmpty
  · exfalso
    have hcsnil : dropTrailingWS (dropWS s.data) = [] := by
      rwa [List.isEmpty_iff] at hempty
    rw [hcsnil, List.nil_append] at hdecomp
    rw [hdecomp] at hint
    cases ht : t with
    | nil =>
      rw [ht] at hint
      simp [splitSign, parseIntBody] at hint
    | cons c t' =>
      have hcws : c.isWhitespace = true :=
        htws c (by rw [ht]; exact List.mem_cons_self c t')
      obtain ⟨hne1, hne2⟩ := wsNotSign c hcws
      rw [ht, splitSign_other c t' hne1 hne2] at hint
      simp only [parseIntBody] at hint
      rw [show (c :: t').takeWhile Char.isDigit = [] from by
        simp [List.takeWhile_cons, wsNotDigit c hcws]] at hint
      simp at hint
  · rw [if_neg hempty] at hnum
    rw [strNumCore_decomp] at hnum
    obtain ⟨c, cs', hcons⟩ : ∃ c cs', dropTrailingWS (dropWS s.data) = c :: cs' := by
      cases hcc : dropTrailingWS (dropWS s.data) with
      | nil => rw [hcc] at hempty; simp at hempty
      | cons c cs' => exact ⟨c, cs', rfl⟩
    rw [hcons] at hnum hdecomp
    rw [hdecomp, splitSign_append] at hint
    exact body_pos (splitSign (c :: cs')).1 (splitSign (c :: cs')).2 t q k
      (splitSign_sg _) htws hnum hint hk

/-- The (claim-level) property that a query-string value is supplied and
denotes a positive integer under JS numeric coercion. -/
def denotesPosInt : Option String → Prop
  | none => False
  | some s => ∃ q : Rat, jsStrToNumber s = some q ∧ q.isInt = true ∧ 0 < q

/-- A page input that is not a positive integer is normalized to 1. -/
lemma safePage_of_not_posInt (ps : Option String) (h : ¬ denotesPosInt ps) :
    safePageOf ps = 1 := by
  cases ps with
  | none => rfl
  | some s =>
    show (match (match jsStrToNumber s with
        | some q => if q.isInt then parseIntJS s else some 1
        | none => some 1) with
      | some n => if 0 < n then n.toNat else 1
      | none => 1) = 1
    cases hn : jsStrToNumber s with
    | none => rfl
    | some q =>
      show (match (if q.isInt then parseIntJS s else some 1) with
        | some n => if 0 < n then n.toNat else 1
        | none => 1) = 1
      by_cases hi : q.isInt
      · rw [if_pos hi]
        cases hk : parseIntJS s with
        | none => rfl
        | some k =>
          show (if 0 < k then k.toNat else 1) = 1
          have hkle : ¬ (0 < k) := by
            intro hpos
            exact h ⟨q, hn, hi, number_pos_of_parseInt_pos s q k hn hk hpos⟩
          rw [if_neg hkle]
      · rw [if_neg hi]
        rfl

/-- A limit input that is not a positive integer is normalized to 10. -/
lemma safeLimit_of_not_posInt (ls : Option String) (h : ¬ denotesPosInt ls) :
    safeLimitOf ls = 10 := by
  cases ls with
  | none => rfl
  | some s =>
    show (match (match jsStrToNumber s with
        | some q => if q.isInt then parseIntJS s else some 10
        | none => some 10) with
      | some n => if 0 < n then n.toNat else 10
      | none => 10) = 10
    cases hn : jsStrToNumber s with
    | none => rfl
    | some q =>
      show (match (if q.isInt then parseIntJS s else some 10) with
        | some n => if 0 < n then n.toNat else 10
        | none => 10) = 10
      by_cases hi : q.isInt
      · rw [if_pos hi]
        cases hk : parseIntJS s with
        | none => rfl
        | some k =>
          show (if 0 < k then k.toNat else 10) = 10
          have hkle : ¬ (0 < k) := by
            intro hpos
            exact h ⟨q, hn, hi, number_pos_of_parseInt_pos s q k hn hk hpos⟩
          rw [if_neg hkle]
      · rw [if_neg hi]
        rfl

/-- The query result recomputed from the normalized parameters alone:
page and limit through `safePageOf`/`safeLimitOf`, the sort field
through `sortFieldOf`, applied after filtering and before slicing. -/
def queryResultNormalized (st : St) (q : Query) : QueryResult :=
  let l := sortStable (leJS (sortFieldOf q.sortBy) (sortOrderOf q.sortOrder))
    (applyFilters st.products q)
  let p := safePageOf q.page
  let k := safeLimitOf q.limit
  let start := (p - 1) * k
  { metadata :=
      { totalProducts := l.length,
        totalPages := (l.length + k - 1) / k,
        currentPage := p,
        pageSize := k,
        hasNextPage := decide (start + k < l.length),
        hasPrevPage := decide (0 < start) },
    products := (l.drop start).take k }

/-- C8: the pipeline normalizes its parameters before use: a `sortBy`
outside `{id, name, price, stock, createdAt}` becomes `id`, a page
input that does not denote a positive integer becomes 1, a limit input
that does not denote a positive integer becomes 10, and the query
result is computed from exactly these normalized values (filter, then
sort by the normalized field, then slice at the normalized page and
limit). -/
theorem c8_query_normalization :
    (∀ s : String, s ∉ validSortFields → sortFieldOf (some s) = "id")
    ∧ (∀ ps, ¬ denotesPosInt ps → safePageOf ps = 1)
    ∧ (∀ ls, ¬ denotesPosInt ls → safeLimitOf ls = 10)
    ∧ (∀ st q, queryResult st q = queryResultNormalized st q
        ∧ (queryResult st q).metadata.currentPage = safePageOf q.page
        ∧ (queryResult st q).metadata.pageSize = safeLimitOf q.limit
        ∧ filteredSorted st q
          = sortStable (leJS (sortFieldOf q.sortBy) (sortOrderOf q.sortOrder))
              (applyFilters st.products q)) := by
  refine ⟨?_, safePage_of_not_posInt, safeLimit_of_not_posInt,
    fun st q => ⟨rfl, rfl, rfl, rfl⟩⟩
  intro s h
  show (if s ∈ validSortFields then s else "id") = "id"
  rw [if_neg h]

/-- C8 witness: `sortBy=bogus` falls back to `id`, `page=2.5` to 1,
`limit=0` to 10. -/
theorem c8_query_normalization_witness :
    sortFieldOf (some "bogus") = "id"
    ∧ safePageOf (some "2.5") = 1
    ∧ safeLimitOf (some "0") = 10 := by
  refine ⟨c8_query_normalization.1 "bogus" (by decide),
    c8_query_normalization.2.1 (some "2.5") ?_, c8_query_normalization.2.2.1 (some "0") ?_⟩
  · rintro ⟨q, hq, hi, hp⟩
    rw [show jsStrToNumber "2.5" = some (mkRat 5 2) from by decide] at hq
    have hq2 := Option.some.inj hq
    rw [← hq2] at hi
    exact absurd hi (by decide)
  · rintro ⟨q, hq, hi, hp⟩
    rw [show jsStrToNumber "0" = some 0 from by decide] at hq
    have hq2 := Option.some.inj hq
    rw [← hq2] at hp
    exact absurd hp (by decide)
